import Mathlib

/-!
Verification of the regclient manifest-modification subsystem: a shallow
embedding of the descriptor model (Equal / Same / Match /
DescriptorListFilter), the annotation mutation step, and the rebase step
(rebaseAddStep), with theorems checking the specified properties.

Go values are translated as follows: strings and digests become String,
int64 sizes become Int, byte slices become List Nat, nil-able slices and
maps become Option of a list (Go distinguishes nil from empty in the
Equal comparisons), and Go maps become association lists whose keys are
assumed distinct (the Go map invariant); map indexing with the zero-value
default is modelled explicitly.
-/

namespace Regclient

/-- Modelled from the spec: the platform structure used inside descriptors
(OS, architecture, variant, os version, os features); its definition lives
outside the provided source files. -/
structure Platform where
  os : String
  architecture : String
  variant : String
  osVersion : String
  osFeatures : List String
deriving DecidableEq, Repr

/-- Modelled from the spec: platform.Match is the exact platform match used
by Descriptor.Equal and DescriptorListSearch ("preferring an exact platform
match"); its definition lives outside the provided source files. -/
def platformMatch (p p2 : Platform) : Bool :=
  p == p2

/-- Modelled from the spec: platform.Compatible accepts compatible, not
merely identical, platforms (for example a darwin/arm64 request accepts a
linux/arm64 image); its definition lives outside the provided source files. -/
def platformCompatible (req tgt : Platform) : Bool :=
  (req.os == tgt.os ||
    ((req.os == "darwin" || req.os == "windows") && tgt.os == "linux")) &&
  req.architecture == tgt.architecture && req.variant == tgt.variant

/-- Modelled from the spec: standard Docker media type strings referenced by
the source but declared outside the provided files. -/
def mediaTypeDocker2ManifestList : String :=
  "application/vnd.docker.distribution.manifest.list.v2+json"

def mediaTypeDocker2Manifest : String :=
  "application/vnd.docker.distribution.manifest.v2+json"

def mediaTypeDocker2ImageConfig : String :=
  "application/vnd.docker.container.image.v1+json"

def mediaTypeDocker2LayerGzip : String :=
  "application/vnd.docker.image.rootfs.diff.tar.gzip"

/-- Modelled from the spec: standard OCI media type strings referenced by
the source but declared outside the provided files. -/
def mediaTypeOCI1ManifestList : String :=
  "application/vnd.oci.image.index.v1+json"

def mediaTypeOCI1Manifest : String :=
  "application/vnd.oci.image.manifest.v1+json"

def mediaTypeOCI1ImageConfig : String :=
  "application/vnd.oci.image.config.v1+json"

def mediaTypeOCI1LayerGzip : String :=
  "application/vnd.oci.image.layer.v1.tar+gzip"

/-- The mtToOCI map initialised in the source's init function: the fixed
Docker-to-OCI media-type equivalence table. A missing key is None (the Go
"comma ok" form); goMT below is Go's defaulted indexing. -/
def mtToOCI (mt : String) : Option String :=
  if mt = mediaTypeDocker2ManifestList then some mediaTypeOCI1ManifestList
  else if mt = mediaTypeDocker2Manifest then some mediaTypeOCI1Manifest
  else if mt = mediaTypeDocker2ImageConfig then some mediaTypeOCI1ImageConfig
  else if mt = mediaTypeDocker2LayerGzip then some mediaTypeOCI1LayerGzip
  else if mt = mediaTypeOCI1ManifestList then some mediaTypeOCI1ManifestList
  else if mt = mediaTypeOCI1Manifest then some mediaTypeOCI1Manifest
  else if mt = mediaTypeOCI1ImageConfig then some mediaTypeOCI1ImageConfig
  else if mt = mediaTypeOCI1LayerGzip then some mediaTypeOCI1LayerGzip
  else none

/-- Go map indexing mtToOCI with the zero-value default (empty string). -/
def goMT (mt : String) : String :=
  (mtToOCI mt).getD ""

/-- Association-list lookup, modelling a Go map read in the comma-ok form. -/
def lookupA (m : List (String × String)) (k : String) : Option String :=
  (m.find? fun p => p.1 == k).map Prod.snd

/-- Association-list lookup with the Go zero-value default. -/
def lookupD (m : List (String × String)) (k : String) : String :=
  (lookupA m k).getD ""

/-- The Descriptor struct from the source: content-addressed pointer with
media type, digest, size, URLs, annotations, inline data, platform and
artifact type. -/
structure Descriptor where
  mediaType : String
  digest : String
  size : Int
  urls : Option (List String)
  annotations : Option (List (String × String))
  data : List Nat
  platform : Option Platform
  artifactType : String
deriving DecidableEq, Repr

/-- Descriptor.Same from the source: digest and size must match, and media
types must match exactly or agree through the mtToOCI table (the second
table read uses Go's defaulted indexing). -/
def Descriptor.Same (d d2 : Descriptor) : Bool :=
  if d.digest ≠ d2.digest ∨ d.size ≠ d2.size then false
  else if d.mediaType ≠ d2.mediaType then
    match mtToOCI d.mediaType with
    | none => false
    | some c => c == goMT d2.mediaType
  else true

/-- The platform comparison inside Descriptor.Equal: both nil, or both
non-nil and platform.Match. -/
def platformsEqual : Option Platform → Option Platform → Bool
  | none, none => true
  | some p, some p2 => platformMatch p p2
  | _, _ => false

/-- The URL comparison inside Descriptor.Equal: both nil, or both non-nil
with equal length and equal elements position by position. -/
def urlsEqual : Option (List String) → Option (List String) → Bool
  | none, none => true
  | some u, some u2 =>
      u.length == u2.length && (u.zip u2).all fun p => p.1 == p.2
  | _, _ => false

/-- The annotations comparison inside Descriptor.Equal: both nil, or both
non-nil with equal size and, for every key of the first map, an equal value
when read from the second map with the Go zero-value default. -/
def annotationsEqualGo : Option (List (String × String)) → Option (List (String × String)) → Bool
  | none, none => true
  | some a, some a2 =>
      a.length == a2.length && a.all fun p => p.2 == lookupD a2 p.1
  | _, _ => false

/-- Descriptor.Equal from the source: Same, plus exact media type, artifact
type, platform (via platform.Match, both-nil accepted), URLs and
annotations comparisons. The inline data field is never consulted. -/
def Descriptor.Equal (d d2 : Descriptor) : Bool :=
  d.Same d2 &&
  d.mediaType == d2.mediaType &&
  d.artifactType == d2.artifactType &&
  platformsEqual d.platform d2.platform &&
  urlsEqual d.urls d2.urls &&
  annotationsEqualGo d.annotations d2.annotations

theorem mtToOCI_ne_empty (mt c : String) (h : mtToOCI mt = some c) : c ≠ "" := by
  unfold mtToOCI at h
  repeat' split at h
  all_goals first
    | (injection h with h2; rw [← h2]; decide)
    | (exact absurd h (by simp))

theorem Descriptor.Same_refl (d : Descriptor) : d.Same d = true := by
  simp [Descriptor.Same]

theorem Descriptor.Same_digest_size (d d2 : Descriptor) (h : d.Same d2 = true) :
    d.digest = d2.digest ∧ d.size = d2.size := by
  unfold Descriptor.Same at h
  split at h
  · exact absurd h (by simp)
  · next hds => exact ⟨by_contra fun hc => hds (Or.inl hc), by_contra fun hc => hds (Or.inr hc)⟩

theorem zip_all_eq (u u2 : List String) (hl : u.length = u2.length)
    (h : ((u.zip u2).all fun p => p.1 == p.2) = true) : u = u2 := by
  induction u generalizing u2 with
  | nil => cases u2 with
    | nil => rfl
    | cons b bs => simp at hl
  | cons a as ih =>
    cases u2 with
    | nil => simp at hl
    | cons b bs =>
      simp only [List.zip_cons_cons, List.all_cons, Bool.and_eq_true, beq_iff_eq] at h
      simp only [List.length_cons, Nat.succ.injEq] at hl
      exact by rw [h.1, ih bs hl h.2]

theorem zip_self_all (u : List String) : ((u.zip u).all fun p => p.1 == p.2) = true := by
  induction u with
  | nil => rfl
  | cons a as ih => simpa using ih

theorem find_self_of_nodup (a : List (String × String)) (p : String × String)
    (hnd : (a.map Prod.fst).Nodup) (hmem : p ∈ a) :
    lookupA a p.1 = some p.2 := by
  induction a with
  | nil => simp at hmem
  | cons q qs ih =>
    simp only [List.map_cons, List.nodup_cons] at hnd
    rcases List.mem_cons.mp hmem with h | h
    · subst h
      simp [lookupA, List.find?]
    · have hne : ¬(q.1 == p.1) = true := by
        simp only [beq_iff_eq]
        intro hc
        exact hnd.1 (hc ▸ List.mem_map_of_mem Prod.fst h)
      simpa [lookupA, List.find?_cons, hne] using ih hnd.2 h

/-- C6 counterexample descriptors: identical except for inline data and for
an annotation map whose single key has the empty-string value. -/
def dC6a : Descriptor :=
  { mediaType := "application/vnd.oci.image.layer.v1.tar+gzip"
    digest := "sha256:aa", size := 3, urls := none
    annotations := some [("a", "")], data := [1]
    platform := none, artifactType := "" }

def dC6b : Descriptor :=
  { dC6a with annotations := some [("b", "x")], data := [] }

/-- C6: the claim states Equal(d1,d2) = true exactly when d1 and d2 are
structurally identical in every field, inline data and the annotation
mapping included. The code never compares the data field and compares
annotations only by size and by reading d1's keys in d2 with the
zero-value default, so two structurally different descriptors are Equal. -/
theorem c6_counterexample : Descriptor.Equal dC6a dC6b = true ∧ dC6a ≠ dC6b := by
  constructor
  · decide
  · decide

/-- C6 (amended): Equal(d1,d2) is true whenever d1 and d2 are structurally
identical (given the Go map invariant of distinct annotation keys), and
conversely Equal(d1,d2) = true guarantees structural identity of the media
type, digest, size, URLs, platform and artifact type fields — but not of
the inline data (never compared) nor of the full annotation mapping
(compared only by size and by reading d1's keys in d2 with the empty-string
default). -/
theorem c6_equal_structural (d d2 : Descriptor)
    (hnd : ((d.annotations.getD []).map Prod.fst).Nodup) :
    (d = d2 → d.Equal d2 = true) ∧
    (d.Equal d2 = true →
      d.mediaType = d2.mediaType ∧ d.digest = d2.digest ∧ d.size = d2.size ∧
      d.urls = d2.urls ∧ d.platform = d2.platform ∧
      d.artifactType = d2.artifactType) := by
  constructor
  · intro h
    subst h
    unfold Descriptor.Equal
    simp only [Bool.and_eq_true, beq_iff_eq]
    refine ⟨⟨⟨⟨⟨d.Same_refl, trivial⟩, trivial⟩, ?_⟩, ?_⟩, ?_⟩
    · cases hp : d.platform with
      | none => simp [platformsEqual]
      | some p => simp [platformsEqual, platformMatch]
    · cases hu : d.urls with
      | none => simp [urlsEqual]
      | some u =>
        simp only [urlsEqual, Bool.and_eq_true, beq_iff_eq]
        exact ⟨trivial, zip_self_all u⟩
    · cases ha : d.annotations with
      | none => simp [annotationsEqualGo]
      | some a =>
        simp only [annotationsEqualGo, Bool.and_eq_true, beq_iff_eq, List.all_eq_true]
        refine ⟨trivial, fun p hp => ?_⟩
        have hnd2 : (a.map Prod.fst).Nodup := by simpa [ha] using hnd
        simp [lookupD, find_self_of_nodup a p hnd2 hp]
  · intro h
    unfold Descriptor.Equal at h
    simp only [Bool.and_eq_true, beq_iff_eq] at h
    obtain ⟨⟨⟨⟨⟨hsame, hmt⟩, hat⟩, hplat⟩, hurls⟩, hanns⟩ := h
    obtain ⟨hdig, hsz⟩ := Descriptor.Same_digest_size d d2 hsame
    refine ⟨hmt, hdig, hsz, ?_, ?_, hat⟩
    · cases hu : d.urls with
      | none => cases hu2 : d2.urls with
        | none => rfl
        | some u2 => rw [hu, hu2] at hurls; simp [urlsEqual] at hurls
      | some u => cases hu2 : d2.urls with
        | none => rw [hu, hu2] at hurls; simp [urlsEqual] at hurls
        | some u2 =>
          rw [hu, hu2] at hurls
          simp only [urlsEqual, Bool.and_eq_true, beq_iff_eq] at hurls
          exact congrArg some (zip_all_eq u u2 hurls.1 hurls.2)
    · cases hp : d.platform with
      | none => cases hp2 : d2.platform with
        | none => rfl
        | some p2 => rw [hp, hp2] at hplat; simp [platformsEqual] at hplat
      | some p => cases hp2 : d2.platform with
        | none => rw [hp, hp2] at hplat; simp [platformsEqual] at hplat
        | some p2 =>
          rw [hp, hp2] at hplat
          simp only [platformsEqual, platformMatch, beq_iff_eq] at hplat
          exact congrArg some hplat

/-- Witness for c6_equal_structural at a concrete descriptor. -/
theorem c6_witness : Descriptor.Equal dC6a dC6a = true :=
  (c6_equal_structural dC6a dC6a (by decide)).1 rfl

/-- C7: for descriptors with identical digest and size, Same is true exactly
when the media types are equal or both map to the same canonical OCI media
type under the fixed mtToOCI table; in particular the Docker and OCI
spellings of the same layer type are Same. -/
theorem c7_same_media_equiv (d d2 : Descriptor)
    (hd : d.digest = d2.digest) (hs : d.size = d2.size) :
    d.Same d2 = true ↔
      (d.mediaType = d2.mediaType ∨
        (mtToOCI d.mediaType ≠ none ∧ mtToOCI d.mediaType = mtToOCI d2.mediaType)) := by
  unfold Descriptor.Same
  rw [if_neg (by simp [hd, hs])]
  by_cases hmt : d.mediaType = d2.mediaType
  · rw [if_neg (by simp [hmt])]
    simp [hmt]
  · rw [if_pos (by simp [hmt])]
    cases hoc : mtToOCI d.mediaType with
    | none => simp [hmt, hoc]
    | some c =>
      simp only [beq_iff_eq, goMT]
      constructor
      · intro h
        cases hoc2 : mtToOCI d2.mediaType with
        | none =>
          rw [hoc2] at h
          simp only [Option.getD_none] at h
          exact absurd h (mtToOCI_ne_empty d.mediaType c hoc)
        | some c2 =>
          rw [hoc2] at h
          simp only [Option.getD_some] at h
          exact Or.inr ⟨by simp, congrArg some h⟩
      · intro h
        rcases h with h | ⟨h1, h2⟩
        · exact absurd h hmt
        · rw [← h2]
          simp

/-- C7 witness descriptors: the Docker and OCI spellings of the gzip layer
media type with identical digest and size. -/
def dC7a : Descriptor :=
  { mediaType := mediaTypeDocker2LayerGzip
    digest := "sha256:bb", size := 7, urls := none
    annotations := none, data := []
    platform := none, artifactType := "" }

def dC7b : Descriptor :=
  { dC7a with mediaType := mediaTypeOCI1LayerGzip }

/-- Witness for c7_same_media_equiv at the Docker and OCI gzip layer types. -/
theorem c7_witness : Descriptor.Same dC7a dC7b = true :=
  (c7_same_media_equiv dC7a dC7b rfl rfl).mpr (Or.inr (by decide))

/-- The MatchOpt struct from the source; the SortAnnotation field is
rendered sortAnnot here. -/
structure MatchOpt where
  platform : Option Platform
  artifactType : String
  annotations : Option (List (String × String))
  sortAnnot : String
  sortDesc : Bool
deriving Repr

/-- Descriptor.Match from the source: artifact-type filter, annotation
key/value filters (an empty requested value only checks key presence), and
platform compatibility. -/
def Descriptor.Match (d : Descriptor) (opt : MatchOpt) : Bool :=
  (opt.artifactType == "" || d.artifactType == opt.artifactType) &&
  (match opt.annotations with
   | none => true
   | some oa =>
     if oa.length == 0 then true
     else match d.annotations with
       | none => false
       | some da => oa.all fun p =>
           match lookupA da p.1 with
           | none => false
           | some dv => p.2 == "" || p.2 == dv) &&
  (match opt.platform, d.platform with
   | none, _ => true
   | some _, none => false
   | some op, some dp => platformCompatible op dp)

/-- The comparator closure passed to sort.Slice in DescriptorListFilter:
descriptors without the sort annotation sort to the very end, the rest by
string comparison of the annotation value, direction per SortDesc. -/
def sortLess (opt : MatchOpt) (a b : Descriptor) : Bool :=
  match a.annotations with
  | none => false
  | some aa =>
    match lookupA aa opt.sortAnnot with
    | none => false
    | some av =>
      match b.annotations with
      | none => true
      | some ba =>
        match lookupA ba opt.sortAnnot with
        | none => true
        | some bv => if av < bv then !opt.sortDesc else opt.sortDesc

/-- Go's sort.Slice modelled as an insertion sort driven by the comparator
closure; the source documents the order of descriptors with equal
annotation values as undefined, so any comparator-driven sort is a faithful
model. -/
def insertLess (less : Descriptor → Descriptor → Bool) (x : Descriptor) :
    List Descriptor → List Descriptor
  | [] => [x]
  | y :: ys => if less x y then x :: y :: ys else y :: insertLess less x ys

def sortSlice (less : Descriptor → Descriptor → Bool) (l : List Descriptor) :
    List Descriptor :=
  l.foldr (insertLess less) []

/-- DescriptorListFilter from the source: filter by Match, then sort only
when a sort annotation was requested. -/
def DescriptorListFilter (dl : List Descriptor) (opt : MatchOpt) : List Descriptor :=
  let ret := dl.filter fun d => d.Match opt
  if opt.sortAnnot ≠ "" then sortSlice (sortLess opt) ret else ret

/-- Whether a descriptor possesses the requested sort annotation (a nil
annotations map counts as lacking it). -/
def hasSortKey (opt : MatchOpt) (d : Descriptor) : Bool :=
  match d.annotations with
  | none => false
  | some da => (lookupA da opt.sortAnnot).isSome

theorem sortLess_of_not_has (opt : MatchOpt) (a b : Descriptor)
    (h : hasSortKey opt a = false) : sortLess opt a b = false := by
  unfold hasSortKey at h
  unfold sortLess
  cases ha : a.annotations with
  | none => simp
  | some aa =>
    rw [ha] at h
    have h2 : (lookupA aa opt.sortAnnot).isSome = false := h
    cases hl : lookupA aa opt.sortAnnot with
    | none => simp [hl]
    | some av => rw [hl] at h2; simp at h2

theorem sortLess_of_has_not_has (opt : MatchOpt) (a b : Descriptor)
    (ha : hasSortKey opt a = true) (hb : hasSortKey opt b = false) :
    sortLess opt a b = true := by
  unfold hasSortKey at ha hb
  unfold sortLess
  cases haa : a.annotations with
  | none => rw [haa] at ha; simp at ha
  | some aa =>
    rw [haa] at ha
    have ha2 : (lookupA aa opt.sortAnnot).isSome = true := ha
    cases hav : lookupA aa opt.sortAnnot with
    | none => rw [hav] at ha2; simp at ha2
    | some av =>
      cases hba : b.annotations with
      | none => simp [hav]
      | some ba =>
        rw [hba] at hb
        have hb2 : (lookupA ba opt.sortAnnot).isSome = false := hb
        cases hbv : lookupA ba opt.sortAnnot with
        | none => simp [hav, hbv]
        | some bv => rw [hbv] at hb2; simp at hb2

theorem mem_insertLess (less : Descriptor → Descriptor → Bool) (x z : Descriptor)
    (l : List Descriptor) (h : z ∈ insertLess less x l) : z = x ∨ z ∈ l := by
  induction l with
  | nil => simpa [insertLess] using h
  | cons y ys ih =>
    unfold insertLess at h
    split at h
    · rcases List.mem_cons.mp h with h | h
      · exact Or.inl h
      · exact Or.inr h
    · rcases List.mem_cons.mp h with h | h
      · exact Or.inr (h ▸ List.mem_cons_self y ys)
      · rcases ih h with h | h
        · exact Or.inl h
        · exact Or.inr (List.mem_cons_of_mem y h)

theorem insertLess_pairwise (opt : MatchOpt) (x : Descriptor) (l : List Descriptor)
    (hl : l.Pairwise fun a b => hasSortKey opt b = true → hasSortKey opt a = true) :
    (insertLess (sortLess opt) x l).Pairwise
      (fun a b => hasSortKey opt b = true → hasSortKey opt a = true) := by
  induction l with
  | nil => simp [insertLess]
  | cons y ys ih =>
    rw [List.pairwise_cons] at hl
    unfold insertLess
    split
    · next hless =>
      have hx : hasSortKey opt x = true := by
        by_contra hc
        rw [sortLess_of_not_has opt x y (Bool.not_eq_true _ ▸ eq_false_of_ne_true hc)] at hless
        exact Bool.false_ne_true hless
      exact List.pairwise_cons.mpr ⟨fun z _ _ => hx, List.pairwise_cons.mpr hl⟩
    · next hless =>
      refine List.pairwise_cons.mpr ⟨?_, ih hl.2⟩
      intro z hz hzk
      rcases mem_insertLess (sortLess opt) x z ys hz with h | h
      · subst h
        by_contra hy
        have : sortLess opt z y = true :=
          sortLess_of_has_not_has opt z y hzk (eq_false_of_ne_true hy)
        exact hless this
      · exact hl.1 z h hzk

theorem sortSlice_pairwise (opt : MatchOpt) (l : List Descriptor) :
    (sortSlice (sortLess opt) l).Pairwise
      (fun a b => hasSortKey opt b = true → hasSortKey opt a = true) := by
  induction l with
  | nil => simp [sortSlice]
  | cons x xs ih => exact insertLess_pairwise opt x _ ih

/-- C8: with a non-empty sort annotation requested (either sort direction),
every descriptor returned by DescriptorListFilter that possesses the sort
annotation appears strictly before every returned descriptor that lacks it,
nil annotation maps included: the returned list is pairwise such that a
later entry with the key forces the earlier entry to have it too. -/
theorem c8_sort_partition (dl : List Descriptor) (opt : MatchOpt)
    (h : opt.sortAnnot ≠ "") :
    (DescriptorListFilter dl opt).Pairwise
      (fun a b => hasSortKey opt b = true → hasSortKey opt a = true) := by
  unfold DescriptorListFilter
  rw [if_pos h]
  exact sortSlice_pairwise opt _

/-- C8 witness data: one descriptor lacking annotations entirely, one with
the sort key, one with annotations but without the key. -/
def dlC8 : List Descriptor :=
  [ { dC7a with annotations := none },
    { dC7a with annotations := some [("idx", "2")] },
    { dC7a with annotations := some [("other", "1")] },
    { dC7a with annotations := some [("idx", "1")] } ]

def optC8 : MatchOpt :=
  { platform := none, artifactType := "", annotations := none
    sortAnnot := "idx", sortDesc := false }

/-- Witness for c8_sort_partition on a concrete list. -/
theorem c8_witness :
    (DescriptorListFilter dlC8 optC8).Pairwise
      (fun a b => hasSortKey optC8 b = true → hasSortKey optC8 a = true) :=
  c8_sort_partition dlC8 optC8 (by decide)

/-- The DAG modification states from the source (unchanged, added, deleted,
replaced). -/
inductive Mod where
  | unchanged
  | added
  | deleted
  | replaced
deriving DecidableEq, Repr

/-- Manifest content for the annotation steps: its annotations plus an
opaque payload standing for every other field. The manifest store is
content addressed, so the descriptor recomputed by GetDescriptor is
modelled by the content itself. The index and image branches of
WithAnnotation act identically on their annotation maps, so a single
content type covers both. -/
structure ManifestContent where
  annotations : Option (List (String × String))
  payload : String
deriving DecidableEq, Repr

/-- The dagManifest fields used by WithAnnotation: the top flag, the
modification state, the manifest and the new descriptor recorded after a
change. -/
structure AnnNode where
  top : Bool
  mod : Mod
  m : ManifestContent
  newDesc : Option ManifestContent
deriving DecidableEq, Repr

/-- Go's delete on a map, in the association-list model. -/
def eraseKey (m : List (String × String)) (k : String) : List (String × String) :=
  m.filter fun p => p.1 ≠ k

/-- Go's map assignment, in the association-list model. -/
def setKey (m : List (String × String)) (k v : String) : List (String × String) :=
  if (lookupA m k).isSome then m.map fun p => if p.1 = k then (p.1, v) else p
  else m ++ [(k, v)]

/-- The step registered by WithAnnotation: skip deleted or non-top nodes;
with an empty value delete the key when present, otherwise set the key when
its current value differs; on a change mark the node replaced, write the
manifest back and record the recomputed descriptor. A nil annotations map
is read as empty, and the local nil-to-empty normalisation is discarded
when nothing changed, exactly as in the source where SetOrig only runs on a
change. -/
def withAnnotStep (name value : String) (dm : AnnNode) : AnnNode :=
  if dm.mod = Mod.deleted ∨ dm.top = false then dm
  else if value = "" ∧ (lookupA (dm.m.annotations.getD []) name).isSome then
    let m2 : ManifestContent :=
      { dm.m with annotations := some (eraseKey (dm.m.annotations.getD []) name) }
    { dm with m := m2, mod := Mod.replaced, newDesc := some m2 }
  else if value ≠ "" ∧ value ≠ (lookupA (dm.m.annotations.getD []) name).getD "" then
    let m2 : ManifestContent :=
      { dm.m with annotations := some (setKey (dm.m.annotations.getD []) name value) }
    { dm with m := m2, mod := Mod.replaced, newDesc := some m2 }
  else dm

/-- C9: on the top manifest node, the step for value="" removes a present
key and then marks the node replaced with the recomputed descriptor; when
the key is absent, or when a non-empty requested value already equals the
current one, the annotations, the modification state and the descriptor are
all left unchanged. -/
theorem c9_annot_step (name : String) (dm : AnnNode)
    (htop : dm.top = true) (hdel : dm.mod ≠ Mod.deleted) :
    ((lookupA (dm.m.annotations.getD []) name).isSome = true →
      withAnnotStep name "" dm =
        { dm with
            m := { dm.m with
                     annotations := some (eraseKey (dm.m.annotations.getD []) name) }
            mod := Mod.replaced
            newDesc := some { dm.m with
                     annotations := some (eraseKey (dm.m.annotations.getD []) name) } }) ∧
    (lookupA (dm.m.annotations.getD []) name = none →
      withAnnotStep name "" dm = dm) ∧
    (∀ v, v ≠ "" → lookupA (dm.m.annotations.getD []) name = some v →
      withAnnotStep name v dm = dm) := by
  refine ⟨?_, ?_, ?_⟩
  · intro hsome
    unfold withAnnotStep
    rw [if_neg (by simp [htop, hdel]), if_pos ⟨rfl, hsome⟩]
  · intro hnone
    unfold withAnnotStep
    rw [if_neg (by simp [htop, hdel]), if_neg (by simp [hnone]), if_neg (by simp)]
  · intro v hv hsome
    unfold withAnnotStep
    rw [if_neg (by simp [htop, hdel]), if_neg (by simp [hv]), if_neg (by simp [hsome])]

/-- C9 witness node: a top, unchanged manifest carrying one annotation. -/
def dmC9 : AnnNode :=
  { top := true, mod := Mod.unchanged
    m := { annotations := some [("k", "x")], payload := "m" }
    newDesc := none }

/-- Witness for c9_annot_step: deleting the present key marks the node
replaced. -/
theorem c9_witness : (withAnnotStep "k" "" dmC9).mod = Mod.replaced := by
  rw [(c9_annot_step "k" dmC9 rfl (by decide)).1 (by decide)]

/-- A reference: a registry name optionally pinned to a digest. Reference
parsing itself is excluded plumbing. -/
structure Ref where
  name : String
  digest : String
deriving DecidableEq, Repr

/-- The error kinds surfaced by WithRebase: the classified
ErrMissingAnnotation and the unclassified parse failures. -/
inductive ModErr where
  | missingAnnot
  | parseFailed
deriving DecidableEq, Repr

def annotBaseImageName : String := "org.opencontainers.image.base.name"

def annotBaseImageDigest : String := "org.opencontainers.image.base.digest"

/-- WithRebase from the source, for manifests supporting annotations: read
the base name and base digest annotations (either missing is the classified
ErrMissingAnnotation), parse both (ref.New and digest.Parse are excluded
plumbing, passed as parameters), and register a rebase from the base name
pinned to the recorded digest onto the unpinned base name. The returned
pair is the (rOld, rNew) handed to rebaseAddStep. -/
def withRebaseOpt (parseRef : String → Option Ref)
    (parseDigest : String → Option String)
    (annot : List (String × String)) : Except ModErr (Ref × Ref) :=
  match lookupA annot annotBaseImageName with
  | none => Except.error ModErr.missingAnnot
  | some baseName =>
    match lookupA annot annotBaseImageDigest with
    | none => Except.error ModErr.missingAnnot
    | some baseDigest =>
      match parseRef baseName with
      | none => Except.error ModErr.parseFailed
      | some rNew =>
        match parseDigest baseDigest with
        | none => Except.error ModErr.parseFailed
        | some dig => Except.ok ({ rNew with digest := dig }, rNew)

/-- C10: WithRebase fails with ErrMissingAnnotation exactly when the base
name or the base digest annotation is absent; when both are present and
parse, the registered rebase runs from the base name pinned to the recorded
digest onto the unpinned base name. -/
theorem c10_with_rebase (parseRef : String → Option Ref)
    (parseDigest : String → Option String) (annot : List (String × String)) :
    (withRebaseOpt parseRef parseDigest annot = Except.error ModErr.missingAnnot ↔
      (lookupA annot annotBaseImageName = none ∨
        lookupA annot annotBaseImageDigest = none)) ∧
    (∀ n d r dg, lookupA annot annotBaseImageName = some n →
      lookupA annot annotBaseImageDigest = some d →
      parseRef n = some r → parseDigest d = some dg →
      withRebaseOpt parseRef parseDigest annot =
        Except.ok ({ r with digest := dg }, r)) := by
  constructor
  · constructor
    · intro h
      unfold withRebaseOpt at h
      cases h1 : lookupA annot annotBaseImageName with
      | none => exact Or.inl rfl
      | some n =>
        simp only [h1] at h
        cases h2 : lookupA annot annotBaseImageDigest with
        | none => exact Or.inr rfl
        | some d =>
          simp only [h2] at h
          cases h3 : parseRef n with
          | none => simp [h3] at h
          | some r =>
            simp only [h3] at h
            cases h4 : parseDigest d with
            | none => simp [h4] at h
            | some dg => simp [h4] at h
    · intro h
      unfold withRebaseOpt
      rcases h with h | h
      · simp [h]
      · cases h1 : lookupA annot annotBaseImageName with
        | none => simp
        | some n => simp [h]
  · intro n d r dg hn hd hr hdg
    unfold withRebaseOpt
    simp [hn, hd, hr, hdg]

/-- C10 witness data: both base annotations present, with simple parsers
that fail only on the empty string. -/
def annotC10 : List (String × String) :=
  [(annotBaseImageName, "example.com/repo:tag"), (annotBaseImageDigest, "sha256:abc")]

def parseRefEx : String → Option Ref :=
  fun s => if s = "" then none else some { name := s, digest := "" }

def parseDigestEx : String → Option String :=
  fun s => if s = "" then none else some s

/-- Witness for c10_with_rebase at a concrete annotation map. -/
theorem c10_witness :
    withRebaseOpt parseRefEx parseDigestEx annotC10 =
      Except.ok ({ name := "example.com/repo:tag", digest := "sha256:abc" },
        { name := "example.com/repo:tag", digest := "" }) :=
  (c10_with_rebase parseRefEx parseDigestEx annotC10).2
    "example.com/repo:tag" "sha256:abc"
    { name := "example.com/repo:tag", digest := "" } "sha256:abc"
    (by decide) (by decide) (by decide) (by decide)

/-- One history entry of an OCI image config. Created is modelled as an
integer timestamp compared by equality (time.Time.Equal); the source
dereferences the Created pointers, so entries are modelled with the
timestamp always present. -/
structure HistoryEntry where
  author : String
  comment : String
  created : Int
  createdBy : String
  emptyLayer : Bool
deriving DecidableEq, Repr

/-- The image-config fields read and spliced by the rebase step. -/
structure OCIConfig where
  history : List HistoryEntry
  diffIDs : List String
deriving DecidableEq, Repr

/-- A DAG layer node: modification state, uncompressed digest (diff-ID)
and layer descriptor. -/
structure DagLayer where
  mod : Mod
  ucDigest : String
  desc : Descriptor
deriving DecidableEq, Repr

/-- The dagConfig fields used by the rebase step: config content plus the
modified flag; the store is content addressed, so the recomputed config
descriptor is the content itself. -/
structure DagConfig where
  oc : OCIConfig
  modified : Bool
deriving DecidableEq, Repr

/-- The dagManifest fields used by the rebase step; mLayers is the layer
descriptor list of the manifest itself (mi.GetLayers / mi.SetLayers). -/
structure DagManifest where
  isList : Bool
  mod : Mod
  mLayers : List Descriptor
  config : DagConfig
  layers : List DagLayer
deriving DecidableEq, Repr

/-- The resolved base-image data consumed by the rebase step: the cached
old/new base manifest descriptors (for the idempotence guard) and each
base's layer descriptors, config history and diff-IDs. In the source these
are fetched from the registry and platform-resolved; transport is excluded
plumbing. -/
structure RebaseIn where
  obDesc : Descriptor
  nbDesc : Descriptor
  obLayers : List Descriptor
  obHistory : List HistoryEntry
  obDiffIDs : List String
  nbLayers : List Descriptor
  nbHistory : List HistoryEntry
  nbDiffIDs : List String
deriving DecidableEq, Repr

/-- Error outcomes of the rebase step: mismatch is the classified
ErrMismatch, newBaseCount the unclassified new-base consistency error, and
outOfRange the index panic reachable in the prune loop. -/
inductive RErr where
  | mismatch
  | newBaseCount
  | outOfRange
deriving DecidableEq, Repr

def defaultDescriptor : Descriptor :=
  { mediaType := "", digest := "", size := 0, urls := none
    annotations := none, data := [], platform := none, artifactType := "" }

def defaultHistoryEntry : HistoryEntry :=
  { author := "", comment := "", created := 0, createdBy := "", emptyLayer := false }

def defaultDagLayer : DagLayer :=
  { mod := Mod.unchanged, ucDigest := "", desc := defaultDescriptor }

/-- The field comparison of the old-base history validation loop: author,
comment, created, created-by and empty-layer all equal. -/
def histEq (h h2 : HistoryEntry) : Bool :=
  h.author == h2.author && h.comment == h2.comment &&
  h.created == h2.created && h.createdBy == h2.createdBy &&
  h.emptyLayer == h2.emptyLayer

/-- The number of history entries not flagged empty-layer. -/
def countNonEmpty (hs : List HistoryEntry) : Nat :=
  hs.countP fun h => !h.emptyLayer

/-- The old-base layer validation loop: each derived layer Same the base
layer at the same index (the preceding length guard makes the zip
traversal cover exactly the indices the source loop visits). -/
def layersSameOK (obLayers layers : List Descriptor) : Bool :=
  (obLayers.zip layers).all fun p => p.2.Same p.1

/-- The old-base history validation loop over the overlapping prefix. -/
def histSameOK (obHistory hist : List HistoryEntry) : Bool :=
  (obHistory.zip hist).all fun p => histEq p.2 p.1

/-- The old-base diff-ID validation loop over the overlapping prefix. -/
def diffSameOK (obDiffIDs diffIDs : List String) : Bool :=
  (obDiffIDs.zip diffIDs).all fun p => p.2 == p.1

/-- The prune loop of the rebase step: walk the DAG layer nodes from the
front, stepping over nodes already marked added, and remove non-added
nodes until the old-base layer count is exhausted; none models the
out-of-range index panic the Go loop hits when fewer than n non-added
nodes remain. The accumulator holds the added nodes already stepped over. -/
def pruneGo (n : Nat) (acc ls : List DagLayer) : Option (List DagLayer) :=
  match n with
  | 0 => some (acc.reverse ++ ls)
  | m + 1 =>
    match ls with
    | [] => none
    | l :: rest =>
      if l.mod = Mod.added then pruneGo (m + 1) (l :: acc) rest
      else pruneGo m acc rest
termination_by structural ls

/-- The spec description of the prune: remove the first n non-added
entries walking from the front, retaining every added entry in place. -/
def pruneSpec (n : Nat) (ls : List DagLayer) : List DagLayer :=
  match n with
  | 0 => ls
  | m + 1 =>
    match ls with
    | [] => []
    | l :: rest =>
      if l.mod = Mod.added then l :: pruneSpec (m + 1) rest
      else pruneSpec m rest
termination_by structural ls

/-- The number of layer nodes not marked added. -/
def countNonAdded (ls : List DagLayer) : Nat :=
  ls.countP fun l => !(l.mod == Mod.added)

theorem pruneGo_eq_spec (ls : List DagLayer) : ∀ (n : Nat) (acc : List DagLayer),
    n ≤ countNonAdded ls →
    pruneGo n acc ls = some (acc.reverse ++ pruneSpec n ls) := by
  induction ls with
  | nil =>
    intro n acc h
    cases n with
    | zero => simp [pruneGo, pruneSpec]
    | succ k => simp [countNonAdded] at h
  | cons l rest ih =>
    intro n acc h
    cases n with
    | zero => simp [pruneGo, pruneSpec]
    | succ k =>
      by_cases hmod : l.mod = Mod.added
      · have hcnt : countNonAdded (l :: rest) = countNonAdded rest := by
          simp [countNonAdded, List.countP_cons, hmod]
        rw [hcnt] at h
        simp only [pruneGo, pruneSpec, if_pos hmod]
        rw [ih (k + 1) (l :: acc) h]
        simp
      · have hcnt : countNonAdded (l :: rest) = countNonAdded rest + 1 := by
          simp [countNonAdded, List.countP_cons, hmod]
        rw [hcnt] at h
        simp only [pruneGo, pruneSpec, if_neg hmod]
        exact ih k acc (Nat.succ_le_succ_iff.mp h)

theorem pruneSpec_sublist (ls : List DagLayer) : ∀ (n : Nat),
    (pruneSpec n ls).Sublist ls := by
  induction ls with
  | nil =>
    intro n
    cases n with
    | zero => exact List.Sublist.refl []
    | succ k => simp [pruneSpec]
  | cons l rest ih =>
    intro n
    cases n with
    | zero => exact List.Sublist.refl _
    | succ k =>
      by_cases hmod : l.mod = Mod.added
      · simp only [pruneSpec, if_pos hmod]
        exact List.Sublist.cons₂ l (ih (k + 1))
      · simp only [pruneSpec, if_neg hmod]
        exact List.Sublist.cons l (ih k)

theorem pruneSpec_count_added (ls : List DagLayer) : ∀ (n : Nat),
    (pruneSpec n ls).countP (fun l => l.mod == Mod.added) =
      ls.countP (fun l => l.mod == Mod.added) := by
  induction ls with
  | nil =>
    intro n
    cases n with
    | zero => rfl
    | succ k => simp [pruneSpec]
  | cons l rest ih =>
    intro n
    cases n with
    | zero => rfl
    | succ k =>
      by_cases hmod : l.mod = Mod.added
      · simp only [pruneSpec, if_pos hmod]
        simp [List.countP_cons, ih (k + 1)]
      · simp only [pruneSpec, if_neg hmod]
        simp [List.countP_cons, hmod, ih k]

theorem pruneSpec_count_nonAdded (ls : List DagLayer) : ∀ (n : Nat),
    n ≤ countNonAdded ls →
    countNonAdded (pruneSpec n ls) = countNonAdded ls - n := by
  induction ls with
  | nil =>
    intro n h
    cases n with
    | zero => rfl
    | succ k => simp [countNonAdded] at h
  | cons l rest ih =>
    intro n h
    cases n with
    | zero => simp [pruneSpec]
    | succ k =>
      by_cases hmod : l.mod = Mod.added
      · have hcnt : countNonAdded (l :: rest) = countNonAdded rest := by
          simp [countNonAdded, List.countP_cons, hmod]
        rw [hcnt] at h ⊢
        simp only [pruneSpec, if_pos hmod]
        have : countNonAdded (l :: pruneSpec (k + 1) rest) =
            countNonAdded (pruneSpec (k + 1) rest) := by
          simp [countNonAdded, List.countP_cons, hmod]
        rw [this, ih (k + 1) h]
      · have hcnt : countNonAdded (l :: rest) = countNonAdded rest + 1 := by
          simp [countNonAdded, List.countP_cons, hmod]
        rw [hcnt] at h ⊢
        simp only [pruneSpec, if_neg hmod]
        rw [ih k (Nat.succ_le_succ_iff.mp h)]
        omega

/-- C5: when the DAG layer sequence holds at least n non-added entries
(n the old-base layer count), the prune loop terminates without any
out-of-range access and its result is exactly the front-to-back walk that
skips added entries and drops the first n non-added ones: a subsequence of
the input (relative order preserved) that retains every added entry and
loses exactly n non-added ones. -/
theorem c5_prune (n : Nat) (ls : List DagLayer) (h : n ≤ countNonAdded ls) :
    pruneGo n [] ls = some (pruneSpec n ls) ∧
    (pruneSpec n ls).Sublist ls ∧
    (pruneSpec n ls).countP (fun l => l.mod == Mod.added) =
      ls.countP (fun l => l.mod == Mod.added) ∧
    countNonAdded (pruneSpec n ls) = countNonAdded ls - n := by
  refine ⟨?_, pruneSpec_sublist ls n, pruneSpec_count_added ls n,
    pruneSpec_count_nonAdded ls n h⟩
  simpa using pruneGo_eq_spec ls n [] h

/-- C5 witness data: an added node sits between two non-added nodes. -/
def lsC5 : List DagLayer :=
  [ { mod := Mod.unchanged, ucDigest := "d1", desc := defaultDescriptor },
    { mod := Mod.added, ucDigest := "d2", desc := defaultDescriptor },
    { mod := Mod.unchanged, ucDigest := "d3", desc := defaultDescriptor } ]

/-- Witness for c5_prune on a concrete sequence. -/
theorem c5_witness :
    pruneGo 2 [] lsC5 = some (pruneSpec 2 lsC5) ∧
    (pruneSpec 2 lsC5).Sublist lsC5 ∧
    (pruneSpec 2 lsC5).countP (fun l => l.mod == Mod.added) =
      lsC5.countP (fun l => l.mod == Mod.added) ∧
    countNonAdded (pruneSpec 2 lsC5) = countNonAdded lsC5 - 2 :=
  c5_prune 2 lsC5 (by decide)

/-- The new DAG layer nodes the rebase prepends: each tagged unchanged
with the new base's diff-ID at the same index (the preceding new-base
consistency check makes every index read in bounds, as in the source). -/
def newBaseNodes (inp : RebaseIn) : List DagLayer :=
  (List.range inp.nbLayers.length).map fun i =>
    { mod := Mod.unchanged
      ucDigest := inp.nbDiffIDs.getD i ""
      desc := inp.nbLayers.getD i defaultDescriptor }

/-- The step registered by rebaseAddStep, as a function of the resolved
base data and of the manifest node: the list/deleted guard, the Equal
idempotence guard, the old-base containment and consistency validations,
the new-base consistency validation, the prune of the old-base prefix out
of the DAG layer nodes, and the splice of the new base into the layer,
history and diff-ID lists, marking the config modified and the manifest
replaced. Registry blob copies are excluded transport. Validation runs
before any mutation, so an error returns the node exactly as received. -/
def rebaseStep (inp : RebaseIn) (dm : DagManifest) : Option RErr × DagManifest :=
  if dm.isList ∨ dm.mod = Mod.deleted then (none, dm)
  else if inp.obDesc.Equal inp.nbDesc then (none, dm)
  else if inp.obLayers.length > dm.mLayers.length then (some RErr.mismatch, dm)
  else if layersSameOK inp.obLayers dm.mLayers = false then (some RErr.mismatch, dm)
  else if inp.obHistory.length > dm.config.oc.history.length then (some RErr.mismatch, dm)
  else if histSameOK inp.obHistory dm.config.oc.history = false then (some RErr.mismatch, dm)
  else if inp.obLayers.length ≠ countNonEmpty inp.obHistory ∨
      inp.obLayers.length ≠ inp.obDiffIDs.length then (some RErr.mismatch, dm)
  else if inp.obDiffIDs.length > dm.config.oc.diffIDs.length then (some RErr.mismatch, dm)
  else if diffSameOK inp.obDiffIDs dm.config.oc.diffIDs = false then (some RErr.mismatch, dm)
  else if inp.nbLayers.length ≠ countNonEmpty inp.nbHistory ∨
      inp.nbDiffIDs.length ≠ countNonEmpty inp.nbHistory then (some RErr.newBaseCount, dm)
  else
    match pruneGo inp.obLayers.length [] dm.layers with
    | none => (some RErr.outOfRange, dm)
    | some pruned =>
      (none,
        { isList := dm.isList
          mod := Mod.replaced
          mLayers := inp.nbLayers ++ dm.mLayers.drop inp.obLayers.length
          config :=
            { oc :=
                { history :=
                    inp.nbHistory ++ dm.config.oc.history.drop inp.obHistory.length
                  diffIDs :=
                    inp.nbDiffIDs ++ dm.config.oc.diffIDs.drop inp.obDiffIDs.length }
              modified := true }
          layers := newBaseNodes inp ++ pruned })

theorem zip_prefix_self {α : Type} (xs ex : List α) : xs.zip (xs ++ ex) = xs.zip xs := by
  induction xs with
  | nil => simp
  | cons a as ih => simpa using ih

theorem zip_self_all_of_refl {α : Type} (f : α → α → Bool) (hf : ∀ x, f x x = true)
    (xs : List α) : ((xs.zip xs).all fun p => f p.2 p.1) = true := by
  induction xs with
  | nil => rfl
  | cons a as ih => simp [hf a, ih]

theorem histEq_refl (h : HistoryEntry) : histEq h h = true := by
  simp [histEq]

theorem zip_all_getD {α : Type} (f : α → α → Bool) (dflt : α) :
    ∀ (obs ls : List α),
    ((obs.zip ls).all fun p => f p.2 p.1) = true →
    ∀ (i : Nat), i < obs.length → i < ls.length →
    f (ls.getD i dflt) (obs.getD i dflt) = true := by
  intro obs
  induction obs with
  | nil => intro ls hall i h1 h2; simp at h1
  | cons a as ih =>
    intro ls hall i h1 h2
    cases ls with
    | nil => simp at h2
    | cons b bs =>
      simp only [List.zip_cons_cons, List.all_cons, Bool.and_eq_true] at hall
      cases i with
      | zero => simpa using hall.1
      | succ j =>
        simp only [List.getD_cons_succ]
        exact ih bs hall.2 j (Nat.succ_lt_succ_iff.mp h1) (Nat.succ_lt_succ_iff.mp h2)

theorem histSameOK_take_count (obHistory : List HistoryEntry) :
    ∀ (hist : List HistoryEntry),
    histSameOK obHistory hist = true →
    obHistory.length ≤ hist.length →
    countNonEmpty (hist.take obHistory.length) = countNonEmpty obHistory := by
  induction obHistory with
  | nil => intro hist h1 h2; rfl
  | cons a as ih =>
    intro hist h1 h2
    cases hist with
    | nil => simp at h2
    | cons b bs =>
      simp only [histSameOK, List.zip_cons_cons, List.all_cons, Bool.and_eq_true] at h1
      have hemp : b.emptyLayer = a.emptyLayer := by
        have := h1.1
        simp only [histEq, Bool.and_eq_true, beq_iff_eq] at this
        exact this.2
      simp only [List.length_cons, List.take_succ_cons, countNonEmpty, List.countP_cons]
      have ihr := ih bs h1.2 (Nat.succ_le_succ_iff.mp h2)
      simp only [countNonEmpty] at ihr
      rw [ihr, hemp]

/-- C3 (amended): when the cached old and new base manifest descriptors
are Equal (full structural identity, the guard the source actually tests),
the rebase step is a no-op: success, no splice, every field of the node
returned exactly as received. -/
theorem c3_rebase_noop (inp : RebaseIn) (dm : DagManifest)
    (h : inp.obDesc.Equal inp.nbDesc = true) :
    rebaseStep inp dm = (none, dm) := by
  unfold rebaseStep
  by_cases h1 : dm.isList = true ∨ dm.mod = Mod.deleted
  · rw [if_pos h1]
  · rw [if_neg h1, if_pos h]

/-- C3 counterexample data: the old and new base descriptors carry the
same digest and size but different (Docker versus OCI) media types, so
Equal is false while the digests agree; both bases resolve to the same
single-layer image and the derived image extends it by one layer. -/
def layerC3 : Descriptor :=
  { mediaType := mediaTypeOCI1LayerGzip, digest := "sha256:l1", size := 5
    urls := none, annotations := none, data := [], platform := none
    artifactType := "" }

def layerC3b : Descriptor :=
  { layerC3 with digest := "sha256:l2", size := 6 }

def histC3 : HistoryEntry :=
  { author := "a", comment := "", created := 10, createdBy := "RUN x"
    emptyLayer := false }

def histC3b : HistoryEntry :=
  { histC3 with created := 11, createdBy := "RUN y" }

def inpC3 : RebaseIn :=
  { obDesc :=
      { mediaType := mediaTypeOCI1Manifest, digest := "sha256:m", size := 100
        urls := none, annotations := none, data := [], platform := none
        artifactType := "" }
    nbDesc :=
      { mediaType := mediaTypeDocker2Manifest, digest := "sha256:m", size := 100
        urls := none, annotations := none, data := [], platform := none
        artifactType := "" }
    obLayers := [layerC3]
    obHistory := [histC3]
    obDiffIDs := ["sha256:d1"]
    nbLayers := [layerC3]
    nbHistory := [histC3]
    nbDiffIDs := ["sha256:d1"] }

def dmC3 : DagManifest :=
  { isList := false
    mod := Mod.unchanged
    mLayers := [layerC3, layerC3b]
    config :=
      { oc := { history := [histC3, histC3b], diffIDs := ["sha256:d1", "sha256:d2"] }
        modified := false }
    layers :=
      [ { mod := Mod.unchanged, ucDigest := "sha256:d1", desc := layerC3 },
        { mod := Mod.unchanged, ucDigest := "sha256:d2", desc := layerC3b } ] }

/-- C3: the claim keys the no-op guard on digest equality alone, but the
source requires the two cached descriptors to be Equal (full structural
identity). With equal digests but different media-type spellings the guard
does not fire: the step succeeds and modifies the node (it is marked
replaced and its config modified), so the claimed no-op fails. -/
theorem c3_counterexample :
    inpC3.obDesc.digest = inpC3.nbDesc.digest ∧
    (rebaseStep inpC3 dmC3).1 = none ∧
    (rebaseStep inpC3 dmC3).2 ≠ dmC3 := by
  refine ⟨rfl, ?_, ?_⟩
  · decide
  · decide

/-- Witness for c3_rebase_noop: identical cached descriptors make the step
return the node untouched. -/
theorem c3_witness : rebaseStep { inpC3 with nbDesc := inpC3.obDesc } dmC3 =
    (none, dmC3) :=
  c3_rebase_noop { inpC3 with nbDesc := inpC3.obDesc } dmC3 (by decide)

/-- C1: for a derived image whose manifest layers, config history and
config diff-IDs each extend the old base entry by entry (and whose old and
new cached base descriptors differ, so the idempotence guard does not
fire), a successful rebase step yields the new base's layers, diff-IDs and
history prepended to the derived extras, and every prepended DAG layer
node is tagged unchanged carrying the new base's diff-ID at its position. -/
theorem c1_rebase_correct (inp : RebaseIn) (dm : DagManifest)
    (extraL : List Descriptor) (extraH : List HistoryEntry) (extraD : List String)
    (hLay : dm.mLayers = inp.obLayers ++ extraL)
    (hHist : dm.config.oc.history = inp.obHistory ++ extraH)
    (hDiff : dm.config.oc.diffIDs = inp.obDiffIDs ++ extraD)
    (hList : dm.isList = false)
    (hDel : dm.mod ≠ Mod.deleted)
    (hNe : inp.obDesc.Equal inp.nbDesc = false)
    (hOk : (rebaseStep inp dm).1 = none) :
    (rebaseStep inp dm).2.mLayers = inp.nbLayers ++ extraL ∧
    (rebaseStep inp dm).2.config.oc.diffIDs = inp.nbDiffIDs ++ extraD ∧
    (rebaseStep inp dm).2.config.oc.history = inp.nbHistory ++ extraH ∧
    ∀ i, i < inp.nbLayers.length →
      (rebaseStep inp dm).2.layers[i]? =
        some { mod := Mod.unchanged
               ucDigest := inp.nbDiffIDs.getD i ""
               desc := inp.nbLayers.getD i defaultDescriptor } := by
  have hg1 : ¬(dm.isList = true ∨ dm.mod = Mod.deleted) := by
    simp [hList, hDel]
  have hg2 : ¬(inp.obDesc.Equal inp.nbDesc = true) := by
    simp [hNe]
  have hg4 : layersSameOK inp.obLayers (inp.obLayers ++ extraL) = true := by
    unfold layersSameOK
    rw [zip_prefix_self]
    exact zip_self_all_of_refl (fun a b => a.Same b) Descriptor.Same_refl inp.obLayers
  have hg6 : histSameOK inp.obHistory (inp.obHistory ++ extraH) = true := by
    unfold histSameOK
    rw [zip_prefix_self]
    exact zip_self_all_of_refl (fun a b => histEq a b) histEq_refl inp.obHistory
  have hg9 : diffSameOK inp.obDiffIDs (inp.obDiffIDs ++ extraD) = true := by
    unfold diffSameOK
    rw [zip_prefix_self]
    exact zip_self_all_of_refl (fun a b => a == b) (fun x => beq_self_eq_true x)
      inp.obDiffIDs
  unfold rebaseStep at hOk ⊢
  rw [hLay, hHist, hDiff] at hOk ⊢
  rw [if_neg hg1, if_neg hg2,
    if_neg (by rw [List.length_append]; omega),
    if_neg (by simp [hg4]),
    if_neg (by rw [List.length_append]; omega),
    if_neg (by simp [hg6])] at hOk ⊢
  by_cases hc7 : inp.obLayers.length ≠ countNonEmpty inp.obHistory ∨
      inp.obLayers.length ≠ inp.obDiffIDs.length
  · rw [if_pos hc7] at hOk
    exact absurd hOk (by simp)
  · rw [if_neg hc7,
      if_neg (by rw [List.length_append]; omega),
      if_neg (by simp [hg9])] at hOk ⊢
    by_cases hc10 : inp.nbLayers.length ≠ countNonEmpty inp.nbHistory ∨
        inp.nbDiffIDs.length ≠ countNonEmpty inp.nbHistory
    · rw [if_pos hc10] at hOk
      exact absurd hOk (by simp)
    · rw [if_neg hc10] at hOk ⊢
      cases hp : pruneGo inp.obLayers.length [] dm.layers with
      | none =>
        exact absurd hOk (by simp [hp])
      | some pruned =>
        simp only [hp] at hOk ⊢
        refine ⟨?_, ?_, ?_, ?_⟩
        · simp [List.drop_left]
        · simp [List.drop_left]
        · simp [List.drop_left]
        · intro i hi
          have hlen : i < (newBaseNodes inp).length := by
            simp [newBaseNodes, hi]
          rw [List.getElem?_append, if_pos hlen]
          unfold newBaseNodes
          rw [List.getElem?_map]
          simp [List.getElem?_range, hi]

/-- C1 witness data: old base of one layer, new base of two layers, and a
derived image extending the old base by one layer. -/
def layerN1 : Descriptor :=
  { layerC3 with digest := "sha256:n1", size := 8 }

def layerN2 : Descriptor :=
  { layerC3 with digest := "sha256:n2", size := 9 }

def histN1 : HistoryEntry :=
  { histC3 with created := 20, createdBy := "RUN n1" }

def histN2 : HistoryEntry :=
  { histC3 with created := 21, createdBy := "RUN n2" }

def inpC1 : RebaseIn :=
  { obDesc := { inpC3.obDesc with digest := "sha256:mo" }
    nbDesc := { inpC3.obDesc with digest := "sha256:mn" }
    obLayers := [layerC3]
    obHistory := [histC3]
    obDiffIDs := ["sha256:d1"]
    nbLayers := [layerN1, layerN2]
    nbHistory := [histN1, histN2]
    nbDiffIDs := ["sha256:nd1", "sha256:nd2"] }

def dmC1 : DagManifest := dmC3

/-- Witness for c1_rebase_correct on a concrete rebase. -/
theorem c1_witness :
    (rebaseStep inpC1 dmC1).2.mLayers = inpC1.nbLayers ++ [layerC3b] ∧
    (rebaseStep inpC1 dmC1).2.config.oc.diffIDs = inpC1.nbDiffIDs ++ ["sha256:d2"] ∧
    (rebaseStep inpC1 dmC1).2.config.oc.history = inpC1.nbHistory ++ [histC3b] ∧
    ∀ i, i < inpC1.nbLayers.length →
      (rebaseStep inpC1 dmC1).2.layers[i]? =
        some { mod := Mod.unchanged
               ucDigest := inpC1.nbDiffIDs.getD i ""
               desc := inpC1.nbLayers.getD i defaultDescriptor } :=
  c1_rebase_correct inpC1 dmC1 [layerC3b] [histC3b] ["sha256:d2"]
    rfl rfl rfl rfl (by decide) (by decide) (by decide)

/-- The disjunction of old-base disagreements listed by the claim: more
layers, history entries or diff-IDs in the old base than in the derived
image; a Same failure at an overlapping layer index; a field difference at
an overlapping history index; a difference at an overlapping diff-ID
index; or the old base's own non-empty-history count disagreeing with its
layer or diff-ID count. -/
def oldBaseMismatch (inp : RebaseIn) (dm : DagManifest) : Prop :=
  inp.obLayers.length > dm.mLayers.length ∨
  inp.obHistory.length > dm.config.oc.history.length ∨
  inp.obDiffIDs.length > dm.config.oc.diffIDs.length ∨
  (∃ i, i < inp.obLayers.length ∧ i < dm.mLayers.length ∧
    (dm.mLayers.getD i defaultDescriptor).Same
      (inp.obLayers.getD i defaultDescriptor) = false) ∨
  (∃ i, i < inp.obHistory.length ∧ i < dm.config.oc.history.length ∧
    histEq (dm.config.oc.history.getD i defaultHistoryEntry)
      (inp.obHistory.getD i defaultHistoryEntry) = false) ∨
  (∃ i, i < inp.obDiffIDs.length ∧ i < dm.config.oc.diffIDs.length ∧
    dm.config.oc.diffIDs.getD i "" ≠ inp.obDiffIDs.getD i "") ∨
  inp.obLayers.length ≠ countNonEmpty inp.obHistory ∨
  inp.obLayers.length ≠ inp.obDiffIDs.length

/-- C2: on a derived image manifest (not a list, not deleted, with the
idempotence guard not firing), any of the listed old-base disagreements
makes the rebase step return the classified mismatch error with the node
exactly as received — no layer, history, diff-ID or modification-state
change. -/
theorem c2_rebase_mismatch (inp : RebaseIn) (dm : DagManifest)
    (hList : dm.isList = false) (hDel : dm.mod ≠ Mod.deleted)
    (hNe : inp.obDesc.Equal inp.nbDesc = false)
    (hmm : oldBaseMismatch inp dm) :
    rebaseStep inp dm = (some RErr.mismatch, dm) := by
  have hg1 : ¬(dm.isList = true ∨ dm.mod = Mod.deleted) := by simp [hList, hDel]
  have hg2 : ¬(inp.obDesc.Equal inp.nbDesc = true) := by simp [hNe]
  unfold rebaseStep
  rw [if_neg hg1, if_neg hg2]
  by_cases h3 : inp.obLayers.length > dm.mLayers.length
  · rw [if_pos h3]
  · rw [if_neg h3]
    by_cases h4 : layersSameOK inp.obLayers dm.mLayers = false
    · rw [if_pos h4]
    · rw [if_neg h4]
      by_cases h5 : inp.obHistory.length > dm.config.oc.history.length
      · rw [if_pos h5]
      · rw [if_neg h5]
        by_cases h6 : histSameOK inp.obHistory dm.config.oc.history = false
        · rw [if_pos h6]
        · rw [if_neg h6]
          by_cases h7 : inp.obLayers.length ≠ countNonEmpty inp.obHistory ∨
              inp.obLayers.length ≠ inp.obDiffIDs.length
          · rw [if_pos h7]
          · rw [if_neg h7]
            by_cases h8 : inp.obDiffIDs.length > dm.config.oc.diffIDs.length
            · rw [if_pos h8]
            · rw [if_neg h8]
              by_cases h9 : diffSameOK inp.obDiffIDs dm.config.oc.diffIDs = false
              · rw [if_pos h9]
              · exfalso
                have h4t : layersSameOK inp.obLayers dm.mLayers = true :=
                  eq_true_of_ne_false h4
                have h6t : histSameOK inp.obHistory dm.config.oc.history = true :=
                  eq_true_of_ne_false h6
                have h9t : diffSameOK inp.obDiffIDs dm.config.oc.diffIDs = true :=
                  eq_true_of_ne_false h9
                have h4z : ((inp.obLayers.zip dm.mLayers).all
                    fun p => p.2.Same p.1) = true := h4t
                have h6z : ((inp.obHistory.zip dm.config.oc.history).all
                    fun p => histEq p.2 p.1) = true := h6t
                have h9z : ((inp.obDiffIDs.zip dm.config.oc.diffIDs).all
                    fun p => p.2 == p.1) = true := h9t
                rcases hmm with h | h | h | h | h | h | h | h
                · exact h3 h
                · exact h5 h
                · exact h8 h
                · obtain ⟨i, hi1, hi2, hif⟩ := h
                  have hall : (dm.mLayers.getD i defaultDescriptor).Same
                      (inp.obLayers.getD i defaultDescriptor) = true :=
                    zip_all_getD (fun a b => a.Same b) defaultDescriptor
                      inp.obLayers dm.mLayers h4z i hi1 hi2
                  rw [hif] at hall
                  exact Bool.false_ne_true hall
                · obtain ⟨i, hi1, hi2, hif⟩ := h
                  have hall : histEq (dm.config.oc.history.getD i defaultHistoryEntry)
                      (inp.obHistory.getD i defaultHistoryEntry) = true :=
                    zip_all_getD (fun a b => histEq a b) defaultHistoryEntry
                      inp.obHistory dm.config.oc.history h6z i hi1 hi2
                  rw [hif] at hall
                  exact Bool.false_ne_true hall
                · obtain ⟨i, hi1, hi2, hif⟩ := h
                  have hall : (dm.config.oc.diffIDs.getD i "" ==
                      inp.obDiffIDs.getD i "") = true :=
                    zip_all_getD (fun a b => a == b) ""
                      inp.obDiffIDs dm.config.oc.diffIDs h9z i hi1 hi2
                  exact hif (by simpa using hall)
                · exact h7 (Or.inl h)
                · exact h7 (Or.inr h)

/-- C2 witness data: a claimed old base with more layers than the derived
image. -/
def inpC2 : RebaseIn :=
  { inpC1 with obLayers := [layerC3, layerC3b, layerN1] }

/-- Witness for c2_rebase_mismatch on a concrete disagreement. -/
theorem c2_witness : rebaseStep inpC2 dmC3 = (some RErr.mismatch, dmC3) :=
  c2_rebase_mismatch inpC2 dmC3 rfl (by decide) (by decide) (Or.inl (by decide))

theorem countNonEmpty_append (xs ys : List HistoryEntry) :
    countNonEmpty (xs ++ ys) = countNonEmpty xs + countNonEmpty ys := by
  unfold countNonEmpty
  rw [List.countP_append]

/-- C4: the triple alignment (manifest layer count equals the non-empty
history count equals the diff-ID count) holds after any successful rebase
step whenever it held before. All no-op guard exits keep the node as is;
the splice path preserves the alignment through the validated old-base and
new-base counts. -/
theorem c4_alignment (inp : RebaseIn) (dm : DagManifest)
    (hinv1 : dm.mLayers.length = countNonEmpty dm.config.oc.history)
    (hinv2 : dm.mLayers.length = dm.config.oc.diffIDs.length)
    (hOk : (rebaseStep inp dm).1 = none) :
    (rebaseStep inp dm).2.mLayers.length =
      countNonEmpty (rebaseStep inp dm).2.config.oc.history ∧
    (rebaseStep inp dm).2.mLayers.length =
      (rebaseStep inp dm).2.config.oc.diffIDs.length := by
  unfold rebaseStep at hOk ⊢
  by_cases hg1 : dm.isList = true ∨ dm.mod = Mod.deleted
  · rw [if_pos hg1] at hOk ⊢
    exact ⟨hinv1, hinv2⟩
  · rw [if_neg hg1] at hOk ⊢
    by_cases hg2 : inp.obDesc.Equal inp.nbDesc = true
    · rw [if_pos hg2] at hOk ⊢
      exact ⟨hinv1, hinv2⟩
    · rw [if_neg hg2] at hOk ⊢
      by_cases h3 : inp.obLayers.length > dm.mLayers.length
      · rw [if_pos h3] at hOk
        exact absurd hOk (by simp)
      · rw [if_neg h3] at hOk ⊢
        by_cases h4 : layersSameOK inp.obLayers dm.mLayers = false
        · rw [if_pos h4] at hOk
          exact absurd hOk (by simp)
        · rw [if_neg h4] at hOk ⊢
          by_cases h5 : inp.obHistory.length > dm.config.oc.history.length
          · rw [if_pos h5] at hOk
            exact absurd hOk (by simp)
          · rw [if_neg h5] at hOk ⊢
            by_cases h6 : histSameOK inp.obHistory dm.config.oc.history = false
            · rw [if_pos h6] at hOk
              exact absurd hOk (by simp)
            · rw [if_neg h6] at hOk ⊢
              by_cases h7 : inp.obLayers.length ≠ countNonEmpty inp.obHistory ∨
                  inp.obLayers.length ≠ inp.obDiffIDs.length
              · rw [if_pos h7] at hOk
                exact absurd hOk (by simp)
              · rw [if_neg h7] at hOk ⊢
                by_cases h8 : inp.obDiffIDs.length > dm.config.oc.diffIDs.length
                · rw [if_pos h8] at hOk
                  exact absurd hOk (by simp)
                · rw [if_neg h8] at hOk ⊢
                  by_cases h9 : diffSameOK inp.obDiffIDs dm.config.oc.diffIDs = false
                  · rw [if_pos h9] at hOk
                    exact absurd hOk (by simp)
                  · rw [if_neg h9] at hOk ⊢
                    by_cases h10 : inp.nbLayers.length ≠ countNonEmpty inp.nbHistory ∨
                        inp.nbDiffIDs.length ≠ countNonEmpty inp.nbHistory
                    · rw [if_pos h10] at hOk
                      exact absurd hOk (by simp)
                    · rw [if_neg h10] at hOk ⊢
                      cases hp : pruneGo inp.obLayers.length [] dm.layers with
                      | none => exact absurd hOk (by simp [hp])
                      | some pruned =>
                        simp only [hp] at hOk ⊢
                        push_neg at h7 h10
                        have htk : countNonEmpty
                            (dm.config.oc.history.take inp.obHistory.length) =
                            countNonEmpty inp.obHistory :=
                          histSameOK_take_count inp.obHistory dm.config.oc.history
                            (eq_true_of_ne_false h6) (Nat.not_lt.mp h5)
                        have hsplit := countNonEmpty_append
                          (dm.config.oc.history.take inp.obHistory.length)
                          (dm.config.oc.history.drop inp.obHistory.length)
                        rw [List.take_append_drop] at hsplit
                        constructor
                        · show (inp.nbLayers ++
                              dm.mLayers.drop inp.obLayers.length).length =
                            countNonEmpty (inp.nbHistory ++
                              dm.config.oc.history.drop inp.obHistory.length)
                          rw [List.length_append, List.length_drop,
                            countNonEmpty_append]
                          omega
                        · show (inp.nbLayers ++
                              dm.mLayers.drop inp.obLayers.length).length =
                            (inp.nbDiffIDs ++
                              dm.config.oc.diffIDs.drop inp.obDiffIDs.length).length
                          rw [List.length_append, List.length_drop,
                            List.length_append, List.length_drop]
                          omega

/-- Witness for c4_alignment on a concrete successful rebase. -/
theorem c4_witness :
    (rebaseStep inpC1 dmC3).2.mLayers.length =
      countNonEmpty (rebaseStep inpC1 dmC3).2.config.oc.history ∧
    (rebaseStep inpC1 dmC3).2.mLayers.length =
      (rebaseStep inpC1 dmC3).2.config.oc.diffIDs.length :=
  c4_alignment inpC1 dmC3 (by decide) (by decide) (by decide)

end Regclient
